import Mathlib

/-!
# R101: the geometric algebra with basis 1, e0, e1, e01 (src/r101.cpp)

A shallow embedding of the class R101 and of its operators.

* The C++ class stores float mvec[4].  Here the four cells are the fields
  mvec0 .. mvec3 of a structure over a coefficient type α, and every operator
  is written once, over any α that carries the operations it uses.  Two
  coefficient types are used: a commutative ring (the exact reals or rationals),
  for the statements worded in exact arithmetic, and F32, a model of IEEE 754
  binary32 with round to nearest even, overflow to infinity and NaN, for what
  the program computes on float.
* The constructor R101(f, idx) writes mvec[idx]; idx ranges over Fin 4 here, an
  index outside 0..3 being undefined behaviour in the source.
* The library functions sqrt and printf("%0.7g") are not part of the source
  file.  Over an ordered field sqrt is an argument of norm, inorm and
  normalized (the theorems instantiate it with Real.sqrt); on F32 the function
  norm32 uses F32.sqrt, the correctly rounded square root.  The number
  formatter is an argument of log, and fmtG7 is a model of the %0.7g
  conversion on rationals.
* log prints to stdout; the model returns the printed text.
-/

/-- The class R101: float mvec[4], cell i holding the coefficient of basis[i]. -/
@[ext] structure R101 (α : Type) where
  mvec0 : α
  mvec1 : α
  mvec2 : α
  mvec3 : α
  deriving DecidableEq, Repr

/-- The table basis[] of r101.cpp line 9: "1","e0","e1","e01". -/
def basis : Fin 4 → String
  | 0 => "1"
  | 1 => "e0"
  | 2 => "e1"
  | 3 => "e01"

/-- Default constructor R101(): std::fill of the four cells with 0.0f. -/
def R101.zero {α : Type} [Zero α] : R101 α :=
  { mvec0 := 0, mvec1 := 0, mvec2 := 0, mvec3 := 0 }

/-- Read access a[idx] (operator []). -/
def R101.get {α : Type} (a : R101 α) : Fin 4 → α
  | 0 => a.mvec0
  | 1 => a.mvec1
  | 2 => a.mvec2
  | 3 => a.mvec3

/-- Write access a[idx] = f (operator [] returning a reference). -/
def R101.set {α : Type} (a : R101 α) (idx : Fin 4) (f : α) : R101 α :=
  match idx with
  | 0 => { a with mvec0 := f }
  | 1 => { a with mvec1 := f }
  | 2 => { a with mvec2 := f }
  | 3 => { a with mvec3 := f }

/-- Constructor R101(float f, int idx = 0): fill with 0.0f, then mvec[idx] = f. -/
def R101.ofBlade {α : Type} [Zero α] (f : α) (idx : Fin 4) : R101 α :=
  (R101.zero).set idx f

/-- R101.Reverse : res = ~a. -/
def R101.Reverse {α : Type} [Neg α] (a : R101 α) : R101 α :=
  { mvec0 := a.mvec0
    mvec1 := a.mvec1
    mvec2 := a.mvec2
    mvec3 := -a.mvec3 }

/-- R101.Dual : res = !a, the Poincare duality operator. -/
def R101.Dual {α : Type} (a : R101 α) : R101 α :=
  { mvec0 := a.mvec3
    mvec1 := a.mvec2
    mvec2 := a.mvec1
    mvec3 := a.mvec0 }

/-- R101.Conjugate : res = a.Conjugate(), Clifford conjugation. -/
def R101.Conjugate {α : Type} [Neg α] (a : R101 α) : R101 α :=
  { mvec0 := a.mvec0
    mvec1 := -a.mvec1
    mvec2 := -a.mvec2
    mvec3 := -a.mvec3 }

/-- R101.Involute : res = a.Involute(), the main involution. -/
def R101.Involute {α : Type} [Neg α] (a : R101 α) : R101 α :=
  { mvec0 := a.mvec0
    mvec1 := -a.mvec1
    mvec2 := -a.mvec2
    mvec3 := a.mvec3 }

/-- R101.Mul : res = a * b, the geometric product (lines 84-91). -/
def R101.Mul {α : Type} [HAdd α α α] [HSub α α α] [HMul α α α] (a b : R101 α) : R101 α :=
  { mvec0 := b.mvec0 * a.mvec0 + b.mvec2 * a.mvec2
    mvec1 := b.mvec1 * a.mvec0 + b.mvec0 * a.mvec1 - b.mvec3 * a.mvec2 + b.mvec2 * a.mvec3
    mvec2 := b.mvec2 * a.mvec0 + b.mvec0 * a.mvec2
    mvec3 := b.mvec3 * a.mvec0 + b.mvec2 * a.mvec1 - b.mvec1 * a.mvec2 + b.mvec0 * a.mvec3 }

/-- R101.Wedge : res = a ^ b, the outer product (lines 97-104). -/
def R101.Wedge {α : Type} [HAdd α α α] [HSub α α α] [HMul α α α] (a b : R101 α) : R101 α :=
  { mvec0 := b.mvec0 * a.mvec0
    mvec1 := b.mvec1 * a.mvec0 + b.mvec0 * a.mvec1
    mvec2 := b.mvec2 * a.mvec0 + b.mvec0 * a.mvec2
    mvec3 := b.mvec3 * a.mvec0 + b.mvec2 * a.mvec1 - b.mvec1 * a.mvec2 + b.mvec0 * a.mvec3 }

/-- R101.Vee : res = a & b, the regressive product (lines 110-117), with the
literal factors 1 and -1 of the source kept in place. -/
def R101.Vee {α : Type} [One α] [Neg α] [HAdd α α α] [HSub α α α] [HMul α α α] (a b : R101 α) : R101 α :=
  { mvec3 := 1 * (a.mvec3 * b.mvec3)
    mvec2 := (-1) * (a.mvec2 * (-1) * b.mvec3 + a.mvec3 * b.mvec2 * (-1))
    mvec1 := 1 * (a.mvec1 * b.mvec3 + a.mvec3 * b.mvec1)
    mvec0 := 1 * (a.mvec0 * b.mvec3 + a.mvec1 * b.mvec2 * (-1) - a.mvec2 * (-1) * b.mvec1
                    + a.mvec3 * b.mvec0) }

/-- R101.Dot : res = a | b, the inner product (lines 123-130). -/
def R101.Dot {α : Type} [HAdd α α α] [HSub α α α] [HMul α α α] (a b : R101 α) : R101 α :=
  { mvec0 := b.mvec0 * a.mvec0 + b.mvec2 * a.mvec2
    mvec1 := b.mvec1 * a.mvec0 + b.mvec0 * a.mvec1 - b.mvec3 * a.mvec2 + b.mvec2 * a.mvec3
    mvec2 := b.mvec2 * a.mvec0 + b.mvec0 * a.mvec2
    mvec3 := b.mvec3 * a.mvec0 + b.mvec0 * a.mvec3 }

/-- R101.Add : res = a + b, multivector addition. -/
def R101.Add {α : Type} [HAdd α α α] (a b : R101 α) : R101 α :=
  { mvec0 := a.mvec0 + b.mvec0
    mvec1 := a.mvec1 + b.mvec1
    mvec2 := a.mvec2 + b.mvec2
    mvec3 := a.mvec3 + b.mvec3 }

/-- R101.Sub : res = a - b, multivector subtraction. -/
def R101.Sub {α : Type} [HSub α α α] (a b : R101 α) : R101 α :=
  { mvec0 := a.mvec0 - b.mvec0
    mvec1 := a.mvec1 - b.mvec1
    mvec2 := a.mvec2 - b.mvec2
    mvec3 := a.mvec3 - b.mvec3 }

/-- R101.smul : res = a * b, scalar/multivector multiplication. -/
def R101.smul {α : Type} [HMul α α α] (a : α) (b : R101 α) : R101 α :=
  { mvec0 := a * b.mvec0
    mvec1 := a * b.mvec1
    mvec2 := a * b.mvec2
    mvec3 := a * b.mvec3 }

/-- R101.muls : res = a * b, multivector/scalar multiplication. -/
def R101.muls {α : Type} [HMul α α α] (a : R101 α) (b : α) : R101 α :=
  { mvec0 := a.mvec0 * b
    mvec1 := a.mvec1 * b
    mvec2 := a.mvec2 * b
    mvec3 := a.mvec3 * b }

/-- R101.sadd : res = a + b, scalar/multivector addition. -/
def R101.sadd {α : Type} [HAdd α α α] (a : α) (b : R101 α) : R101 α :=
  { mvec0 := a + b.mvec0
    mvec1 := b.mvec1
    mvec2 := b.mvec2
    mvec3 := b.mvec3 }

/-- R101.adds : res = a + b, multivector/scalar addition. -/
def R101.adds {α : Type} [HAdd α α α] (a : R101 α) (b : α) : R101 α :=
  { mvec0 := a.mvec0 + b
    mvec1 := a.mvec1
    mvec2 := a.mvec2
    mvec3 := a.mvec3 }

/-- R101.ssub : res = a - b, scalar/multivector subtraction. -/
def R101.ssub {α : Type} [Neg α] [HSub α α α] (a : α) (b : R101 α) : R101 α :=
  { mvec0 := a - b.mvec0
    mvec1 := -b.mvec1
    mvec2 := -b.mvec2
    mvec3 := -b.mvec3 }

/-- R101.subs : res = a - b, multivector/scalar subtraction. -/
def R101.subs {α : Type} [HSub α α α] (a : R101 α) (b : α) : R101 α :=
  { mvec0 := a.mvec0 - b
    mvec1 := a.mvec1
    mvec2 := a.mvec2
    mvec3 := a.mvec3 }

/-- R101::norm (line 237): sqrt(std::abs(((*this)*Conjugate()).mvec[0])).
The library function sqrt is the argument sqrt. -/
def R101.norm {α : Type} [LinearOrderedField α] (sqrt : α → α) (a : R101 α) : α :=
  sqrt |(R101.Mul a (R101.Conjugate a)).mvec0|

/-- R101::inorm (line 238): (!(*this)).norm(). -/
def R101.inorm {α : Type} [LinearOrderedField α] (sqrt : α → α) (a : R101 α) : α :=
  R101.norm sqrt (R101.Dual a)

/-- R101::normalized (line 239): (*this) * (1/norm()), the product being the
multivector/scalar overload. -/
def R101.normalized {α : Type} [LinearOrderedField α] (sqrt : α → α) (a : R101 α) : R101 α :=
  R101.muls a (1 / R101.norm sqrt a)

/-- The global e0(1.0f,1). -/
def e0 {α : Type} [Zero α] [One α] : R101 α := R101.ofBlade 1 1

/-- The global e1(1.0f,2). -/
def e1 {α : Type} [Zero α] [One α] : R101 α := R101.ofBlade 1 2

/-- The global e01(1.0f,3). -/
def e01 {α : Type} [Zero α] [One α] : R101 α := R101.ofBlade 1 3

/-! ## The presentation routine log

printf("%s%0.7g%s", ...) needs the C library conversion %0.7g.  The functions
below model it on rationals: seven significant digits, round half to even,
style f when the decimal exponent X satisfies -4 ≤ X < 7 and style e
otherwise, trailing zeros (and a bare decimal point) removed. -/

/-- Largest k with d * 10^k ≤ n, searched upwards from k (for d ≤ n). -/
def decExpUp (n d : Nat) : Nat → Nat → Nat
  | 0, k => k
  | f + 1, k => if d * 10 ^ (k + 1) ≤ n then decExpUp n d f (k + 1) else k

/-- Smallest k with d ≤ n * 10^k, searched upwards from k (for n < d). -/
def decExpDown (n d : Nat) : Nat → Nat → Nat
  | 0, k => k
  | f + 1, k => if d ≤ n * 10 ^ k then k else decExpDown n d f (k + 1)

/-- Decimal exponent of the positive rational n/d: the X with
10^X ≤ n/d < 10^(X+1). -/
def decExp (n d : Nat) : Int :=
  if d ≤ n then (decExpUp n d n 0 : Int) else -(decExpDown n d d 1 : Int)

/-- The quotient p/q rounded to the nearest integer, ties to even. -/
def roundHalfEven (p q : Nat) : Nat :=
  if q < 2 * (p % q) ∨ (2 * (p % q) = q ∧ (p / q) % 2 = 1) then p / q + 1 else p / q

/-- The seven significant digits of n/d, as the integer nearest to
(n/d) / 10^(X-6). -/
def sig7 (n d : Nat) (X : Int) : Nat :=
  if X ≤ 6 then roundHalfEven (n * 10 ^ (6 - X).toNat) d
  else roundHalfEven n (d * 10 ^ (X - 6).toNat)

/-- Removal of trailing zeros from a digit string. -/
def stripZeros (l : List Char) : List Char :=
  (l.reverse.dropWhile (fun c => c == '0')).reverse

/-- Exponent digits of style e: at least two. -/
def expDigits (e : Nat) : List Char :=
  if e < 10 then '0' :: Nat.toDigits 10 e else Nat.toDigits 10 e

/-- Digits printed by %0.7g for the positive rational n/d (without sign): the
exponent X is the one of the value after rounding to seven digits. -/
def fmtG7Pos (n d : Nat) : List Char :=
  let X0 := decExp n d
  let m0 := sig7 n d X0
  let m := if m0 = 10 ^ 7 then 10 ^ 6 else m0
  let X := if m0 = 10 ^ 7 then X0 + 1 else X0
  let ds := Nat.toDigits 10 m
  if -4 ≤ X ∧ X < 7 then
    if 0 ≤ X then
      let fp := stripZeros (ds.drop (X.toNat + 1))
      if fp = [] then ds.take (X.toNat + 1) else ds.take (X.toNat + 1) ++ '.' :: fp
    else
      '0' :: '.' :: (List.replicate ((-X).toNat - 1) '0' ++ stripZeros ds)
  else
    let fp := stripZeros (ds.drop 1)
    (if fp = [] then ds.take 1 else ds.take 1 ++ '.' :: fp)
      ++ 'e' :: (if X < 0 then '-' else '+') :: expDigits X.natAbs

/-- Model of the conversion %0.7g of printf on a rational value (the flag 0
has no effect without a field width). -/
def fmtG7 (x : ℚ) : String :=
  if x = 0 then "0"
  else String.mk ((if x < 0 then ['-'] else []) ++ fmtG7Pos x.num.natAbs x.den)

/-- The locals of log: the counters n and j and the text printed so far. -/
structure LogState where
  n : Nat
  j : Nat
  out : String
  deriving DecidableEq, Repr

/-- One pass of the loop body of log for the index i: when mvec[i]!=0.0f,
n++, then printf("%s%0.7g%s",(j>0)?" + ":"",mvec[i],(i==0)?"":basis[i]), then
j++; nothing otherwise. -/
def R101.logStep {α : Type} [Zero α] [DecidableEq α] (fmt : α → String) (a : R101 α)
    (s : LogState) (i : Fin 4) : LogState :=
  if a.get i ≠ 0 then
    { n := s.n + 1
      j := s.j + 1
      out := s.out ++ ((if s.j > 0 then " + " else "") ++ fmt (a.get i)
                ++ (if i = 0 then "" else basis i)) }
  else s

/-- R101::log (line 17): the loop over i = 0..3, then "0" when no term was
printed, then the line end.  Returns the printed text and the value *this. -/
def R101.log {α : Type} [Zero α] [DecidableEq α] (fmt : α → String) (a : R101 α) :
    String × R101 α :=
  let s := [0, 1, 2, 3].foldl (R101.logStep fmt a) { n := 0, j := 0, out := "" }
  let s := if s.n = 0 then { s with out := s.out ++ "0" } else s
  (s.out ++ "\n", a)

/-! ## Binary32 coefficients

The type float of the source is IEEE 754 binary32.  Every finite binary32
number is an integer multiple of 2^-149, so a finite value is stored as that
integer.  Each arithmetic operation is rounded on its own, to nearest with ties
to even (no fused multiply-add, no excess precision); a rounded magnitude of
2^128 or more becomes an infinity.  The two zeros are not distinguished, and
neither are the NaN payloads: none of the operations below (negation, fabs,
addition, subtraction, multiplication, square root, comparison) can tell them
apart except in the sign of a zero result. -/

/-- A binary32 value: the finite number k * 2^-149, an infinity with its sign
(neg = true for minus infinity), or NaN. -/
inductive F32 where
  | fin (k : Int)
  | inf (neg : Bool)
  | nan
  deriving DecidableEq, Repr

/-- Number of binary digits of n, by halving (the first argument is fuel). -/
def bitLenAux : Nat → Nat → Nat
  | 0, _ => 0
  | f + 1, n => if n = 0 then 0 else bitLenAux f (n / 2) + 1

/-- Number of binary digits of n: 0 for 0, and L with 2^(L-1) ≤ n < 2^L otherwise. -/
def bitLen (n : Nat) : Nat := bitLenAux n n

/-- The quotient N / 2^t rounded to the nearest integer, ties to even. -/
def rndShift (N t : Nat) : Nat :=
  if 2 ^ t < 2 * (N % 2 ^ t) ∨ (2 * (N % 2 ^ t) = 2 ^ t ∧ (N / 2 ^ t) % 2 = 1)
  then N / 2 ^ t + 1 else N / 2 ^ t

/-- The magnitude N / 2^s, in units of 2^-149, rounded to binary32 with an
unbounded exponent: at most 24 significant bits are kept and nothing below
the unit 2^-149 (the subnormal range).  The result is again in units of 2^-149. -/
def F32.roundMag (N s : Nat) : Nat :=
  rndShift N (max s (bitLen N - 24)) * 2 ^ (max s (bitLen N - 24) - s)

/-- Rounding of the value ± N / 2^s (in units of 2^-149) to binary32: 2^277
units are 2^128, the first magnitude that overflows to an infinity. -/
def F32.round (neg : Bool) (N s : Nat) : F32 :=
  if 2 ^ 277 ≤ F32.roundMag N s then F32.inf neg
  else F32.fin (if neg then -(F32.roundMag N s : Int) else (F32.roundMag N s : Int))

/-- Conversion of an integer to float, as for an integer literal or 1e30f. -/
def F32.ofInt (n : Int) : F32 := F32.round (decide (n < 0)) (n.natAbs * 2 ^ 149) 0

/-- Unary minus on float. -/
def F32.neg : F32 → F32
  | .fin k => .fin (-k)
  | .inf s => .inf (!s)
  | .nan => .nan

/-- The function std::abs on float. -/
def F32.abs : F32 → F32
  | .fin k => .fin (Int.ofNat k.natAbs)
  | .inf _ => .inf false
  | .nan => .nan

/-- Addition on float: NaN propagates, inf + (-inf) is NaN, and a finite sum is
the exact sum rounded. -/
def F32.add : F32 → F32 → F32
  | .nan, _ => .nan
  | _, .nan => .nan
  | .inf s, .inf t => if s = t then .inf s else .nan
  | .inf s, .fin _ => .inf s
  | .fin _, .inf t => .inf t
  | .fin a, .fin b => F32.round (decide (a + b < 0)) (a + b).natAbs 0

/-- Subtraction on float: x - y is x + (-y). -/
def F32.sub (x y : F32) : F32 := F32.add x (F32.neg y)

/-- Multiplication on float: NaN propagates, inf * 0 is NaN, and a finite
product is the exact product (a * b) / 2^149 units rounded. -/
def F32.mul : F32 → F32 → F32
  | .nan, _ => .nan
  | _, .nan => .nan
  | .inf s, .inf t => .inf (xor s t)
  | .inf s, .fin b => if b = 0 then .nan else .inf (xor s (decide (b < 0)))
  | .fin a, .inf t => if a = 0 then .nan else .inf (xor (decide (a < 0)) t)
  | .fin a, .fin b => F32.round (decide (a * b < 0)) (a * b).natAbs 149

/-- Integer square root, two bits at a time: the root of n is twice the root
of n / 4, or one more (the first argument is fuel). -/
def isqrtAux : Nat → Nat → Nat
  | 0, _ => 0
  | f + 1, n =>
    if n = 0 then 0
    else if (2 * isqrtAux f (n / 4) + 1) * (2 * isqrtAux f (n / 4) + 1) ≤ n
      then 2 * isqrtAux f (n / 4) + 1 else 2 * isqrtAux f (n / 4)

/-- Integer square root: the r with r * r ≤ n < (r + 1) * (r + 1). -/
def isqrt (n : Nat) : Nat := isqrtAux n n

/-- The function sqrt on float, correctly rounded: NaN for NaN and for a
negative argument.  For k > 0 the root of k * 2^-149 is sqrt(k * 2^149) units;
r is its integer part, and one more bit records whether the root is exact. -/
def F32.sqrt : F32 → F32
  | .nan => .nan
  | .inf s => if s then .nan else .inf false
  | .fin k =>
    if k < 0 then .nan
    else if k = 0 then .fin 0
    else
      let N := k.natAbs * 2 ^ 149
      let r := isqrt N
      let t := bitLen r - 24
      .fin (Int.ofNat (rndShift (2 * r + (if r * r = N then 0 else 1)) (t + 1) * 2 ^ t))

/-- The comparison x <= y on float: false when either side is NaN. -/
def F32.le : F32 → F32 → Bool
  | .nan, _ => false
  | _, .nan => false
  | .inf s, .inf t => s || !t
  | .inf s, .fin _ => s
  | .fin _, .inf t => !t
  | .fin a, .fin b => decide (a ≤ b)

instance : Zero F32 := ⟨F32.fin 0⟩

instance : One F32 := ⟨F32.ofInt 1⟩

instance : Neg F32 := ⟨F32.neg⟩

instance : Add F32 := ⟨F32.add⟩

instance : Sub F32 := ⟨F32.sub⟩

instance : Mul F32 := ⟨F32.mul⟩

/-- R101::norm (line 237) on float coefficients:
sqrt(std::abs(((*this)*Conjugate()).mvec[0])). -/
def R101.norm32 (a : R101 F32) : F32 :=
  F32.sqrt (F32.abs (R101.Mul a (R101.Conjugate a)).mvec0)

/-! ## The geometric, outer, regressive and inner products -/

set_option maxRecDepth 100000

set_option exponentiation.threshold 2048


/-- C1: for all multivectors a and b over exact (commutative-ring) coefficients,
the geometric product a * b has coefficients a0*b0 + a2*b2,
a0*b1 + a1*b0 - a2*b3 + a3*b2, a0*b2 + a2*b0 and a0*b3 + a1*b2 - a2*b1 + a3*b0. -/
theorem R101.Mul_closed_form {α : Type} [CommRing α] (a b : R101 α) :
    (R101.Mul a b).mvec0 = a.mvec0 * b.mvec0 + a.mvec2 * b.mvec2 ∧
    (R101.Mul a b).mvec1
      = a.mvec0 * b.mvec1 + a.mvec1 * b.mvec0 - a.mvec2 * b.mvec3 + a.mvec3 * b.mvec2 ∧
    (R101.Mul a b).mvec2 = a.mvec0 * b.mvec2 + a.mvec2 * b.mvec0 ∧
    (R101.Mul a b).mvec3
      = a.mvec0 * b.mvec3 + a.mvec1 * b.mvec2 - a.mvec2 * b.mvec1 + a.mvec3 * b.mvec0 := by
  refine ⟨?_, ?_, ?_, ?_⟩ <;> simp only [R101.Mul] <;> ring

/-- C2 (as stated, refuted): at a = e0, b = e1 the regressive product has
coefficient 0 equal to -1, whereas the stated formula
a0*b3 + a3*b0 + a1*b2 - a2*b1 evaluates to 1. -/
theorem R101.Vee_stated_signs_fail :
    (R101.Vee (e0 : R101 ℚ) e1).mvec0 = -1 ∧
    (e0 : R101 ℚ).mvec0 * (e1 : R101 ℚ).mvec3 + (e0 : R101 ℚ).mvec3 * (e1 : R101 ℚ).mvec0
        + (e0 : R101 ℚ).mvec1 * (e1 : R101 ℚ).mvec2
        - (e0 : R101 ℚ).mvec2 * (e1 : R101 ℚ).mvec1 = 1 ∧
    (R101.Vee (e0 : R101 ℚ) e1).mvec0 ≠
      (e0 : R101 ℚ).mvec0 * (e1 : R101 ℚ).mvec3 + (e0 : R101 ℚ).mvec3 * (e1 : R101 ℚ).mvec0
        + (e0 : R101 ℚ).mvec1 * (e1 : R101 ℚ).mvec2
        - (e0 : R101 ℚ).mvec2 * (e1 : R101 ℚ).mvec1 := by
  refine ⟨?_, ?_, ?_⟩ <;>
    norm_num [R101.Vee, e0, e1, R101.ofBlade, R101.set, R101.zero]

/-- C2 (amended): for all multivectors a and b the regressive product a & b has
coefficients res[3] = a3*b3, res[2] = a2*b3 + a3*b2, res[1] = a1*b3 + a3*b1 and
res[0] = a0*b3 + a3*b0 - a1*b2 + a2*b1. -/
theorem R101.Vee_closed_form {α : Type} [CommRing α] (a b : R101 α) :
    (R101.Vee a b).mvec3 = a.mvec3 * b.mvec3 ∧
    (R101.Vee a b).mvec2 = a.mvec2 * b.mvec3 + a.mvec3 * b.mvec2 ∧
    (R101.Vee a b).mvec1 = a.mvec1 * b.mvec3 + a.mvec3 * b.mvec1 ∧
    (R101.Vee a b).mvec0
      = a.mvec0 * b.mvec3 + a.mvec3 * b.mvec0 - a.mvec1 * b.mvec2 + a.mvec2 * b.mvec1 := by
  refine ⟨?_, ?_, ?_, ?_⟩ <;> simp only [R101.Vee] <;> ring

/-- C3 (as stated, refuted): on float, at a = (16777216, 0, 1, 1) and
b = (1, 1, 0, 1), coefficient 0 of a & b is 16777216 while coefficient 0 of
!((!a) ^ (!b)) is 16777218: line 115 adds the four products in another order
than line 102 does on the duals, and 16777216 + 1 rounds back to 16777216. -/
theorem R101.Vee_Dual_Wedge_binary32_differ :
    (R101.Vee (⟨F32.ofInt 16777216, 0, 1, 1⟩ : R101 F32) ⟨1, 1, 0, 1⟩).mvec0
      = F32.ofInt 16777216 ∧
    (R101.Dual (R101.Wedge (R101.Dual (⟨F32.ofInt 16777216, 0, 1, 1⟩ : R101 F32))
        (R101.Dual ⟨1, 1, 0, 1⟩))).mvec0 = F32.ofInt 16777218 ∧
    R101.Vee (⟨F32.ofInt 16777216, 0, 1, 1⟩ : R101 F32) ⟨1, 1, 0, 1⟩
      ≠ R101.Dual (R101.Wedge (R101.Dual (⟨F32.ofInt 16777216, 0, 1, 1⟩ : R101 F32))
          (R101.Dual ⟨1, 1, 0, 1⟩)) := by
  decide

/-- C3 (amended): with coefficients read as exact reals (floating-point rounding
aside), for all multivectors a and b the regressive product is the dual of the
outer product of the duals, a & b = !((!a) ^ (!b)), coefficient for coefficient. -/
theorem R101.Vee_eq_Dual_Wedge_Dual {α : Type} [CommRing α] (a b : R101 α) :
    R101.Vee a b = R101.Dual (R101.Wedge (R101.Dual a) (R101.Dual b)) := by
  ext <;> simp only [R101.Vee, R101.Dual, R101.Wedge] <;> ring

/-- C4: for all multivectors a and b the outer product a ^ b has coefficients
a0*b0, a0*b1 + a1*b0, a0*b2 + a2*b0 and a0*b3 + a1*b2 - a2*b1 + a3*b0. -/
theorem R101.Wedge_closed_form {α : Type} [CommRing α] (a b : R101 α) :
    (R101.Wedge a b).mvec0 = a.mvec0 * b.mvec0 ∧
    (R101.Wedge a b).mvec1 = a.mvec0 * b.mvec1 + a.mvec1 * b.mvec0 ∧
    (R101.Wedge a b).mvec2 = a.mvec0 * b.mvec2 + a.mvec2 * b.mvec0 ∧
    (R101.Wedge a b).mvec3
      = a.mvec0 * b.mvec3 + a.mvec1 * b.mvec2 - a.mvec2 * b.mvec1 + a.mvec3 * b.mvec0 := by
  refine ⟨?_, ?_, ?_, ?_⟩ <;> simp only [R101.Wedge] <;> ring

/-- C5 (as stated, refuted): on float, at a = (16777216, 1, 0, 0) and
b = (0, 0, 1, 1), coefficient 3 of a * b and of a | b are both 16777216, so
they do not differ, while the dropped terms a1*b2 - a2*b1 are 1. -/
theorem R101.Mul_Dot_gap_binary32 :
    (R101.Mul (⟨F32.ofInt 16777216, 1, 0, 0⟩ : R101 F32) ⟨0, 0, 1, 1⟩).mvec3
      = F32.ofInt 16777216 ∧
    (R101.Dot (⟨F32.ofInt 16777216, 1, 0, 0⟩ : R101 F32) ⟨0, 0, 1, 1⟩).mvec3
      = F32.ofInt 16777216 ∧
    (R101.Mul (⟨F32.ofInt 16777216, 1, 0, 0⟩ : R101 F32) ⟨0, 0, 1, 1⟩).mvec3
      - (R101.Dot (⟨F32.ofInt 16777216, 1, 0, 0⟩ : R101 F32) ⟨0, 0, 1, 1⟩).mvec3 = 0 ∧
    (⟨F32.ofInt 16777216, 1, 0, 0⟩ : R101 F32).mvec1 * (⟨0, 0, 1, 1⟩ : R101 F32).mvec2
      - (⟨F32.ofInt 16777216, 1, 0, 0⟩ : R101 F32).mvec2 * (⟨0, 0, 1, 1⟩ : R101 F32).mvec1
      = 1 ∧
    (R101.Mul (⟨F32.ofInt 16777216, 1, 0, 0⟩ : R101 F32) ⟨0, 0, 1, 1⟩).mvec3
      - (R101.Dot (⟨F32.ofInt 16777216, 1, 0, 0⟩ : R101 F32) ⟨0, 0, 1, 1⟩).mvec3
      ≠ (⟨F32.ofInt 16777216, 1, 0, 0⟩ : R101 F32).mvec1 * (⟨0, 0, 1, 1⟩ : R101 F32).mvec2
        - (⟨F32.ofInt 16777216, 1, 0, 0⟩ : R101 F32).mvec2
          * (⟨0, 0, 1, 1⟩ : R101 F32).mvec1 := by
  decide

/-- C5 (amended): with coefficients read as exact reals (floating-point rounding
aside), for all multivectors a and b the inner product a | b has coefficients
a0*b0 + a2*b2, a0*b1 + a1*b0 - a2*b3 + a3*b2, a0*b2 + a2*b0 and a0*b3 + a3*b0;
it agrees with the geometric product on coefficients 0, 1 and 2, and the
geometric product exceeds it at coefficient 3 by exactly a1*b2 - a2*b1. -/
theorem R101.Dot_closed_form_and_Mul {α : Type} [CommRing α] (a b : R101 α) :
    ((R101.Dot a b).mvec0 = a.mvec0 * b.mvec0 + a.mvec2 * b.mvec2 ∧
     (R101.Dot a b).mvec1
       = a.mvec0 * b.mvec1 + a.mvec1 * b.mvec0 - a.mvec2 * b.mvec3 + a.mvec3 * b.mvec2 ∧
     (R101.Dot a b).mvec2 = a.mvec0 * b.mvec2 + a.mvec2 * b.mvec0 ∧
     (R101.Dot a b).mvec3 = a.mvec0 * b.mvec3 + a.mvec3 * b.mvec0) ∧
    ((R101.Dot a b).mvec0 = (R101.Mul a b).mvec0 ∧
     (R101.Dot a b).mvec1 = (R101.Mul a b).mvec1 ∧
     (R101.Dot a b).mvec2 = (R101.Mul a b).mvec2 ∧
     (R101.Mul a b).mvec3 - (R101.Dot a b).mvec3 = a.mvec1 * b.mvec2 - a.mvec2 * b.mvec1) := by
  refine ⟨⟨?_, ?_, ?_, ?_⟩, ?_, ?_, ?_, ?_⟩ <;> simp only [R101.Dot, R101.Mul] <;> ring

/-- C6: the geometric product is associative in exact arithmetic: for all
multivectors a, b, c, (a * b) * c = a * (b * c). -/
theorem R101.Mul_assoc {α : Type} [CommRing α] (a b c : R101 α) :
    R101.Mul (R101.Mul a b) c = R101.Mul a (R101.Mul b c) := by
  ext <;> simp only [R101.Mul] <;> ring

/-! ## Norm and normalization, over the exact reals -/

/-- C7: normalization yields unit norm in exact real arithmetic: for every
multivector a with norm(a) > 0, norm(normalized(a)) = 1. -/
theorem R101.norm_normalized_eq_one (a : R101 ℝ) (h : 0 < R101.norm Real.sqrt a) :
    R101.norm Real.sqrt (R101.normalized Real.sqrt a) = 1 := by
  have hn : R101.norm Real.sqrt a ≠ 0 := ne_of_gt h
  have hsq : R101.norm Real.sqrt a * R101.norm Real.sqrt a
      = |a.mvec0 * a.mvec0 + -a.mvec2 * a.mvec2| := by
    simp only [R101.norm, R101.Mul, R101.Conjugate]
    exact Real.mul_self_sqrt (abs_nonneg _)
  have key : (R101.Mul (R101.normalized Real.sqrt a)
        (R101.Conjugate (R101.normalized Real.sqrt a))).mvec0
      = (a.mvec0 * a.mvec0 + -a.mvec2 * a.mvec2)
          / (R101.norm Real.sqrt a * R101.norm Real.sqrt a) := by
    simp only [R101.normalized, R101.muls, R101.Mul, R101.Conjugate]
    field_simp
  have hone : |(R101.Mul (R101.normalized Real.sqrt a)
        (R101.Conjugate (R101.normalized Real.sqrt a))).mvec0| = 1 := by
    rw [key, abs_div, ← hsq, abs_of_nonneg (mul_self_nonneg _), div_self (mul_ne_zero hn hn)]
  show Real.sqrt |(R101.Mul (R101.normalized Real.sqrt a)
        (R101.Conjugate (R101.normalized Real.sqrt a))).mvec0| = 1
  rw [hone, Real.sqrt_one]

/-- Witness for C7 at a = 2 + 5 e0 + 7 e01, whose norm is sqrt 4 > 0. -/
theorem R101.norm_normalized_eq_one_witness :
    0 < R101.norm Real.sqrt (⟨2, 5, 0, 7⟩ : R101 ℝ) ∧
    R101.norm Real.sqrt (R101.normalized Real.sqrt (⟨2, 5, 0, 7⟩ : R101 ℝ)) = 1 :=
  ⟨by simp only [R101.norm, R101.Mul, R101.Conjugate]; exact Real.sqrt_pos.mpr (by norm_num),
   R101.norm_normalized_eq_one ⟨2, 5, 0, 7⟩
    (by simp only [R101.norm, R101.Mul, R101.Conjugate]; exact Real.sqrt_pos.mpr (by norm_num))⟩

/-- C8 (as stated, refuted): on float, at the finite a = (1e30f, 0, 1e30f, 0)
the products a0*a0 and (-a2)*a2 overflow to +inf and -inf, their sum is NaN,
norm(a) is NaN and the comparison norm(a) >= 0 is false. -/
theorem R101.norm32_overflow_nan :
    (R101.Mul (⟨F32.ofInt (10 ^ 30), 0, F32.ofInt (10 ^ 30), 0⟩ : R101 F32)
      (R101.Conjugate ⟨F32.ofInt (10 ^ 30), 0, F32.ofInt (10 ^ 30), 0⟩)).mvec0 = F32.nan ∧
    R101.norm32 ⟨F32.ofInt (10 ^ 30), 0, F32.ofInt (10 ^ 30), 0⟩ = F32.nan ∧
    F32.le 0 (R101.norm32 ⟨F32.ofInt (10 ^ 30), 0, F32.ofInt (10 ^ 30), 0⟩) = false := by
  decide

/-- On float, norm(a) is NaN or satisfies norm(a) >= 0, for every a. -/
theorem R101.norm32_nan_or_nonneg (a : R101 F32) :
    R101.norm32 a = F32.nan ∨ F32.le 0 (R101.norm32 a) = true := by
  unfold R101.norm32
  generalize (R101.Mul a (R101.Conjugate a)).mvec0 = x
  cases x with
  | nan => exact Or.inl rfl
  | inf s => exact Or.inr rfl
  | fin k =>
    right
    show F32.le (F32.fin 0) (F32.sqrt (F32.fin (Int.ofNat k.natAbs))) = true
    unfold F32.sqrt
    have h : ¬ (Int.ofNat k.natAbs < 0) := not_lt.mpr (Int.ofNat_nonneg _)
    simp only [h, if_false]
    split_ifs <;> rfl

/-- C8 (amended): with coefficients read as exact reals (no NaN, no overflow)
and sqrt any function that is non-negative on non-negative arguments,
norm(a) ≥ 0 for every multivector a, where norm(a) is sqrt of the absolute
value of coefficient 0 of a * Conjugate(a). -/
theorem R101.norm_nonneg_of_sqrt_nonneg {α : Type} [LinearOrderedField α] (sqrt : α → α)
    (hs : ∀ x, 0 ≤ x → 0 ≤ sqrt x) (a : R101 α) :
    0 ≤ R101.norm sqrt a :=
  hs _ (abs_nonneg _)

/-- Witness for C8 over the reals, at a = e1 and with a square root that is
negative on negative arguments: coefficient 0 of e1 * Conjugate(e1) is -1, so
the inequality rests on the absolute value taken inside norm. -/
theorem R101.norm_nonneg_of_sqrt_nonneg_witness :
    (∀ x : ℝ, 0 ≤ x → 0 ≤ (fun y : ℝ => if 0 ≤ y then Real.sqrt y else -1) x) ∧
    (R101.Mul (e1 : R101 ℝ) (R101.Conjugate e1)).mvec0 = -1 ∧
    (fun y : ℝ => if 0 ≤ y then Real.sqrt y else -1)
      (R101.Mul (e1 : R101 ℝ) (R101.Conjugate e1)).mvec0 < 0 ∧
    0 ≤ R101.norm (fun y : ℝ => if 0 ≤ y then Real.sqrt y else -1) (e1 : R101 ℝ) :=
  ⟨fun x hx => by simp only [if_pos hx]; exact Real.sqrt_nonneg x,
   by norm_num [R101.Mul, R101.Conjugate, e1, R101.ofBlade, R101.set, R101.zero],
   by norm_num [R101.Mul, R101.Conjugate, e1, R101.ofBlade, R101.set, R101.zero],
   R101.norm_nonneg_of_sqrt_nonneg _
     (fun x hx => by simp only [if_pos hx]; exact Real.sqrt_nonneg x) e1⟩

/-! ## The unit blades and the presentation routine -/

/-- C9: both degenerate unit blades square to zero under the geometric product:
e0 * e0 and e01 * e01 equal the default-constructed zero multivector. -/
theorem e0_e01_square_zero {α : Type} [Ring α] :
    R101.Mul (e0 : R101 α) e0 = R101.zero ∧ R101.Mul (e01 : R101 α) e01 = R101.zero := by
  constructor <;> ext <;>
    simp [R101.Mul, e0, e01, R101.ofBlade, R101.set, R101.zero]

/-- Sample values of the %0.7g model, each the text printf prints for it:
1, -1, 100, 0.5, 1/3, 2/3, 1234567.5 (tie, to even), 12345678, 9999999.5
(rounding carries into the exponent), 0.0001 and 0.00001. -/
theorem fmtG7_samples :
    fmtG7 1 = "1" ∧ fmtG7 (-1) = "-1" ∧ fmtG7 100 = "100" ∧
    String.mk (fmtG7Pos 1 2) = "0.5" ∧ String.mk (fmtG7Pos 1 3) = "0.3333333" ∧
    String.mk (fmtG7Pos 2 3) = "0.6666667" ∧ String.mk (fmtG7Pos 2469135 2) = "1234568" ∧
    fmtG7 12345678 = "1.234568e+07" ∧ String.mk (fmtG7Pos 19999999 2) = "1e+07" ∧
    String.mk (fmtG7Pos 1 10000) = "0.0001" ∧ String.mk (fmtG7Pos 1 100000) = "1e-05" := by
  refine ⟨?_, ?_, ?_, ?_, ?_, ?_, ?_, ?_, ?_, ?_, ?_⟩ <;> decide

/-- Whatever the number formatter prints for 1, log applied to e01 prints that
text, then the basis name e01, then the line end. -/
theorem R101.log_e01_any_formatter {α : Type} [Ring α] [Nontrivial α] [DecidableEq α]
    (fmt : α → String) :
    R101.log fmt (e01 : R101 α) = (fmt 1 ++ "e01" ++ "\n", e01) := by
  simp [R101.log, R101.logStep, e01, R101.ofBlade, R101.set, R101.zero, R101.get, basis]

/-- C10 (as stated, refuted): log applied to e01 = R101(1, 3) does not print the
text "e01" (with or without the line end): the coefficient is printed too. -/
theorem R101.log_e01_not_bare_name :
    (R101.log fmtG7 (e01 : R101 ℚ)).1 ≠ "e01\n" ∧ (R101.log fmtG7 (e01 : R101 ℚ)).1 ≠ "e01" := by
  decide

/-- C10 (amended): log applied to e01 = R101(1, 3) prints exactly the text "1e01"
followed by the line end: one term, the coefficient 1 as %0.7g prints it and
then the basis name e01; it returns the multivector unchanged. -/
theorem R101.log_e01 :
    R101.log fmtG7 (e01 : R101 ℚ) = ("1e01\n", e01) := by
  decide

/-! ## Scalar mixing, involutions and the additive identity -/

/-- C11: mixing a bare scalar s with a multivector b gives the same result as
embedding s as R101(s, 0) and using multivector addition or subtraction:
s + b = R101(s,0) + b, b + s = b + R101(s,0), s - b = R101(s,0) - b and
b - s = b - R101(s,0). -/
theorem R101.scalar_mixing_eq_embedding {α : Type} [Ring α] (s : α) (b : R101 α) :
    R101.sadd s b = R101.Add (R101.ofBlade s 0) b ∧
    R101.adds b s = R101.Add b (R101.ofBlade s 0) ∧
    R101.ssub s b = R101.Sub (R101.ofBlade s 0) b ∧
    R101.subs b s = R101.Sub b (R101.ofBlade s 0) := by
  refine ⟨?_, ?_, ?_, ?_⟩ <;> ext <;>
    simp [R101.sadd, R101.adds, R101.ssub, R101.subs, R101.Add, R101.Sub, R101.ofBlade,
      R101.set, R101.zero]

/-- C12: reversion is an involution: for every multivector a, ~(~a) = a. -/
theorem R101.Reverse_Reverse {α : Type} [Ring α] (a : R101 α) :
    R101.Reverse (R101.Reverse a) = a := by
  ext <;> simp [R101.Reverse]

/-- C13: Poincare duality is an involution: for every multivector a, !(!a) = a. -/
theorem R101.Dual_Dual {α : Type} (a : R101 α) :
    R101.Dual (R101.Dual a) = a := by
  ext <;> rfl

/-- C14: the default-constructed multivector is the additive identity: for every
multivector a, a + R101() = a and a - R101() = a. -/
theorem R101.Add_zero_Sub_zero {α : Type} [Ring α] (a : R101 α) :
    R101.Add a R101.zero = a ∧ R101.Sub a R101.zero = a := by
  constructor <;> ext <;> simp [R101.Add, R101.Sub, R101.zero]

/-- C15 (as stated, refuted): on float, at the finite pure grade-1
v = (0, 1e20f, 1e20f, 0) the product v2*v1 overflows to +inf, so coefficient 3
of v ^ v is (0 + inf) - inf + 0 = NaN and v ^ v is not the zero multivector. -/
theorem R101.Wedge_self_binary32_nan :
    (⟨0, F32.ofInt (10 ^ 20), F32.ofInt (10 ^ 20), 0⟩ : R101 F32).mvec0 = 0 ∧
    (⟨0, F32.ofInt (10 ^ 20), F32.ofInt (10 ^ 20), 0⟩ : R101 F32).mvec3 = 0 ∧
    F32.ofInt (10 ^ 20) * F32.ofInt (10 ^ 20) = F32.inf false ∧
    (R101.Wedge (⟨0, F32.ofInt (10 ^ 20), F32.ofInt (10 ^ 20), 0⟩ : R101 F32)
      ⟨0, F32.ofInt (10 ^ 20), F32.ofInt (10 ^ 20), 0⟩).mvec3 = F32.nan ∧
    R101.Wedge (⟨0, F32.ofInt (10 ^ 20), F32.ofInt (10 ^ 20), 0⟩ : R101 F32)
      ⟨0, F32.ofInt (10 ^ 20), F32.ofInt (10 ^ 20), 0⟩ ≠ R101.zero := by
  decide

/-- C15 (amended): with coefficients read as exact reals (no overflow), for every
pure grade-1 multivector v (coefficients 0 and 3 zero, coefficients 1 and 2
arbitrary) the outer product v ^ v is the zero multivector. -/
theorem R101.Wedge_self_grade1 {α : Type} [CommRing α] (v : R101 α)
    (h0 : v.mvec0 = 0) (h3 : v.mvec3 = 0) :
    R101.Wedge v v = R101.zero := by
  ext <;> simp only [R101.Wedge, R101.zero, h0, h3] <;> ring

/-- Witness for C15 at v = 3 e0 + 5 e1 over the rationals. -/
theorem R101.Wedge_self_grade1_witness :
    (⟨0, 3, 5, 0⟩ : R101 ℚ).mvec0 = 0 ∧ (⟨0, 3, 5, 0⟩ : R101 ℚ).mvec3 = 0 ∧
    R101.Wedge (⟨0, 3, 5, 0⟩ : R101 ℚ) ⟨0, 3, 5, 0⟩ = R101.zero :=
  ⟨rfl, rfl, R101.Wedge_self_grade1 ⟨0, 3, 5, 0⟩ rfl rfl⟩

/-! ## The product a * Conjugate(a), the norm and reversion -/

/-- C16 (as stated, refuted): at a = e1 the scalar part of a * Conjugate(a) is -1,
which is negative, and the absolute value taken inside norm changes it. -/
theorem R101.Mul_Conjugate_e1_negative :
    (R101.Mul (e1 : R101 ℚ) (R101.Conjugate e1)).mvec0 = -1 ∧
    ¬ 0 ≤ (R101.Mul (e1 : R101 ℚ) (R101.Conjugate e1)).mvec0 ∧
    |(R101.Mul (e1 : R101 ℚ) (R101.Conjugate e1)).mvec0|
      ≠ (R101.Mul (e1 : R101 ℚ) (R101.Conjugate e1)).mvec0 := by
  have h : (R101.Mul (e1 : R101 ℚ) (R101.Conjugate e1)).mvec0 = -1 := by
    norm_num [R101.Mul, R101.Conjugate, e1, R101.ofBlade, R101.set, R101.zero]
  rw [h]
  norm_num

/-- C16 (amended): for every multivector a, the scalar part of a * Conjugate(a)
is non-negative in exact arithmetic exactly when a2*a2 ≤ a0*a0, and exactly
then the absolute value taken inside norm leaves it unchanged. -/
theorem R101.Mul_Conjugate_scalar_nonneg_iff {α : Type} [LinearOrderedField α] (a : R101 α) :
    (0 ≤ (R101.Mul a (R101.Conjugate a)).mvec0 ↔ a.mvec2 * a.mvec2 ≤ a.mvec0 * a.mvec0) ∧
    (|(R101.Mul a (R101.Conjugate a)).mvec0| = (R101.Mul a (R101.Conjugate a)).mvec0
      ↔ a.mvec2 * a.mvec2 ≤ a.mvec0 * a.mvec0) := by
  have h : (R101.Mul a (R101.Conjugate a)).mvec0 = a.mvec0 * a.mvec0 - a.mvec2 * a.mvec2 := by
    simp only [R101.Mul, R101.Conjugate]
    ring
  rw [h, abs_eq_self, sub_nonneg]
  exact ⟨Iff.rfl, Iff.rfl⟩

/-- C17: the geometric product is not commutative: e0 * e1 has coefficient 3
equal to 1 and e1 * e0 has coefficient 3 equal to -1, so there are multivectors
a and b with a * b ≠ b * a. -/
theorem R101.Mul_not_commutative :
    (R101.Mul (e0 : R101 ℚ) e1).mvec3 = 1 ∧ (R101.Mul (e1 : R101 ℚ) e0).mvec3 = -1 ∧
    R101.Mul (e0 : R101 ℚ) e1 ≠ R101.Mul e1 e0 ∧
    ∃ a b : R101 ℚ, R101.Mul a b ≠ R101.Mul b a := by
  have h1 : (R101.Mul (e0 : R101 ℚ) e1).mvec3 = 1 := by
    norm_num [R101.Mul, e0, e1, R101.ofBlade, R101.set, R101.zero]
  have h2 : (R101.Mul (e1 : R101 ℚ) e0).mvec3 = -1 := by
    norm_num [R101.Mul, e0, e1, R101.ofBlade, R101.set, R101.zero]
  have hne : R101.Mul (e0 : R101 ℚ) e1 ≠ R101.Mul e1 e0 := by
    intro h
    have h3 := congrArg R101.mvec3 h
    rw [h1, h2] at h3
    norm_num at h3
  exact ⟨h1, h2, hne, e0, e1, hne⟩

/-- C18 (as stated, refuted): on float, at a = (1, 16777216, 1, 1) the product
a * Conjugate(a) is (0, 0, 0, 1), whose coefficient 3 is not 0; and at
a = (1e20f, 0, 1e20f, 0), where a0*a0 = a2*a2, norm(a) is NaN and not 0. -/
theorem R101.Mul_Conjugate_binary32_not_scalar :
    R101.Mul (⟨1, F32.ofInt 16777216, 1, 1⟩ : R101 F32)
      (R101.Conjugate ⟨1, F32.ofInt 16777216, 1, 1⟩) = ⟨0, 0, 0, 1⟩ ∧
    (R101.Mul (⟨1, F32.ofInt 16777216, 1, 1⟩ : R101 F32)
      (R101.Conjugate ⟨1, F32.ofInt 16777216, 1, 1⟩)).mvec3 ≠ 0 ∧
    R101.norm32 ⟨F32.ofInt (10 ^ 20), 0, F32.ofInt (10 ^ 20), 0⟩ = F32.nan ∧
    R101.norm32 ⟨F32.ofInt (10 ^ 20), 0, F32.ofInt (10 ^ 20), 0⟩ ≠ 0 := by
  decide

/-- C18 (amended): with coefficients read as exact reals (floating-point rounding
and overflow aside), for every multivector a, a * Conjugate(a) is a pure scalar: coefficients
1, 2 and 3 are 0 and coefficient 0 is a0*a0 - a2*a2; hence
norm(a) = sqrt(|a0^2 - a2^2|), which is 0 whenever a0^2 = a2^2. -/
theorem R101.Mul_Conjugate_pure_scalar (a : R101 ℝ) :
    (R101.Mul a (R101.Conjugate a)).mvec0 = a.mvec0 * a.mvec0 - a.mvec2 * a.mvec2 ∧
    (R101.Mul a (R101.Conjugate a)).mvec1 = 0 ∧
    (R101.Mul a (R101.Conjugate a)).mvec2 = 0 ∧
    (R101.Mul a (R101.Conjugate a)).mvec3 = 0 ∧
    R101.norm Real.sqrt a = Real.sqrt |a.mvec0 ^ 2 - a.mvec2 ^ 2| ∧
    (a.mvec0 ^ 2 = a.mvec2 ^ 2 → R101.norm Real.sqrt a = 0) := by
  have h0 : (R101.Mul a (R101.Conjugate a)).mvec0 = a.mvec0 ^ 2 - a.mvec2 ^ 2 := by
    simp only [R101.Mul, R101.Conjugate]
    ring
  have hn : R101.norm Real.sqrt a = Real.sqrt |a.mvec0 ^ 2 - a.mvec2 ^ 2| := by
    show Real.sqrt |(R101.Mul a (R101.Conjugate a)).mvec0| = _
    rw [h0]
  refine ⟨?_, ?_, ?_, ?_, hn, ?_⟩
  · rw [h0]; ring
  · simp only [R101.Mul, R101.Conjugate]; ring
  · simp only [R101.Mul, R101.Conjugate]; ring
  · simp only [R101.Mul, R101.Conjugate]; ring
  · intro h
    rw [hn, h, sub_self, abs_zero, Real.sqrt_zero]

/-- Witness for C18: the nonzero multivectors e0, e01 and 1 + e1 satisfy
a0^2 = a2^2 and have norm 0. -/
theorem R101.Mul_Conjugate_pure_scalar_witness :
    ((e0 : R101 ℝ) ≠ R101.zero ∧ R101.norm Real.sqrt (e0 : R101 ℝ) = 0) ∧
    ((e01 : R101 ℝ) ≠ R101.zero ∧ R101.norm Real.sqrt (e01 : R101 ℝ) = 0) ∧
    (R101.sadd 1 (e1 : R101 ℝ) ≠ R101.zero ∧
      R101.norm Real.sqrt (R101.sadd 1 (e1 : R101 ℝ)) = 0) :=
  ⟨⟨fun h => by
      have h1 := congrArg R101.mvec1 h
      simp [e0, R101.ofBlade, R101.set, R101.zero] at h1,
    (R101.Mul_Conjugate_pure_scalar e0).2.2.2.2.2
      (by simp [e0, R101.ofBlade, R101.set, R101.zero])⟩,
   ⟨fun h => by
      have h1 := congrArg R101.mvec3 h
      simp [e01, R101.ofBlade, R101.set, R101.zero] at h1,
    (R101.Mul_Conjugate_pure_scalar e01).2.2.2.2.2
      (by simp [e01, R101.ofBlade, R101.set, R101.zero])⟩,
   ⟨fun h => by
      have h1 := congrArg R101.mvec2 h
      simp [R101.sadd, e1, R101.ofBlade, R101.set, R101.zero] at h1,
    (R101.Mul_Conjugate_pure_scalar (R101.sadd 1 e1)).2.2.2.2.2
      (by simp [R101.sadd, e1, R101.ofBlade, R101.set, R101.zero])⟩⟩

/-- C19: the norm is multiplicative over the geometric product in exact real
arithmetic: for all multivectors a and b, norm(a * b) = norm(a) * norm(b). -/
theorem R101.norm_Mul (a b : R101 ℝ) :
    R101.norm Real.sqrt (R101.Mul a b) = R101.norm Real.sqrt a * R101.norm Real.sqrt b := by
  simp only [R101.norm, R101.Mul, R101.Conjugate]
  rw [← Real.sqrt_mul (abs_nonneg _), ← abs_mul]
  congr 2
  ring

/-- C20 (as stated, refuted): on float, at a = (16777216, 0, 1, 1) and
b = (0, 1, 1, 1), coefficient 1 of ~(a * b) is (16777216 - 1) + 1 = 16777216
while coefficient 1 of (~b) * (~a) is (16777216 + 1) - 1 = 16777215, the sum
16777216 + 1 rounding back to 16777216. -/
theorem R101.Reverse_Mul_binary32_differ :
    (R101.Reverse (R101.Mul (⟨F32.ofInt 16777216, 0, 1, 1⟩ : R101 F32) ⟨0, 1, 1, 1⟩)).mvec1
      = F32.ofInt 16777216 ∧
    (R101.Mul (R101.Reverse (⟨0, 1, 1, 1⟩ : R101 F32))
      (R101.Reverse ⟨F32.ofInt 16777216, 0, 1, 1⟩)).mvec1 = F32.ofInt 16777215 ∧
    R101.Reverse (R101.Mul (⟨F32.ofInt 16777216, 0, 1, 1⟩ : R101 F32) ⟨0, 1, 1, 1⟩)
      ≠ R101.Mul (R101.Reverse (⟨0, 1, 1, 1⟩ : R101 F32))
          (R101.Reverse ⟨F32.ofInt 16777216, 0, 1, 1⟩) := by
  decide

/-- C20 (amended): with coefficients read as exact reals (floating-point rounding
aside), reversion is an anti-automorphism of the geometric product: for all
multivectors a and b, ~(a * b) = (~b) * (~a). -/
theorem R101.Reverse_Mul {α : Type} [CommRing α] (a b : R101 α) :
    R101.Reverse (R101.Mul a b) = R101.Mul (R101.Reverse b) (R101.Reverse a) := by
  ext <;> simp only [R101.Reverse, R101.Mul] <;> ring

/-! ## Checks of the binary32 model -/

/-- The bounds that define the integer square root hold for isqrtAux with
enough fuel. -/
theorem isqrtAux_spec (f : Nat) : ∀ n, n ≤ f →
    isqrtAux f n * isqrtAux f n ≤ n ∧ n < (isqrtAux f n + 1) * (isqrtAux f n + 1) := by
  induction f with
  | zero =>
    intro n hn
    have h0 : n = 0 := by omega
    subst h0
    simp [isqrtAux]
  | succ f ih =>
    intro n hn
    unfold isqrtAux
    by_cases h0 : n = 0
    · subst h0; simp
    · rw [if_neg h0]
      obtain ⟨h1, h2⟩ := ih (n / 4) (by omega)
      generalize isqrtAux f (n / 4) = s at h1 h2 ⊢
      have h3 : 4 * (s * s) ≤ n := by omega
      have h4 : n < 4 * ((s + 1) * (s + 1)) := by omega
      split_ifs with h
      · refine ⟨h, ?_⟩
        nlinarith
      · refine ⟨by nlinarith, ?_⟩
        omega

/-- The function isqrt is the integer square root of Mathlib. -/
theorem isqrt_eq_sqrt (n : Nat) : isqrt n = Nat.sqrt n := by
  obtain ⟨h1, h2⟩ := isqrtAux_spec n n le_rfl
  exact Nat.eq_sqrt.mpr ⟨h1, h2⟩

/-- Sample values of the binary32 model, each the value IEEE 754 arithmetic
gives: 2^24 + 1 is not representable and rounds to 2^24, 2^24 + 3 rounds to
2^24 + 4 (ties to even), 1e20f is 100000002004087734272, 2^128 and the tie
below it overflow, products that overflow give infinities of the right sign,
inf - inf and inf * 0 are NaN, halves of the odd subnormals round to even,
and the square roots of 4, 2 and -1 are 2, 11863283 * 2^-23 and NaN. -/
theorem F32_samples :
    F32.ofInt 16777217 = F32.ofInt 16777216 ∧
    F32.ofInt 16777216 + 1 = F32.ofInt 16777216 ∧
    F32.ofInt 16777216 + F32.ofInt 3 = F32.ofInt 16777220 ∧
    F32.ofInt 16777216 - 1 = F32.ofInt 16777215 ∧
    F32.ofInt (10 ^ 20) = F32.fin (100000002004087734272 * 2 ^ 149) ∧
    F32.ofInt (10 ^ 30) = F32.fin (1000000015047466219876688855040 * 2 ^ 149) ∧
    F32.ofInt (2 ^ 128) = F32.inf false ∧
    F32.ofInt (2 ^ 128 - 2 ^ 103) = F32.inf false ∧
    F32.ofInt (2 ^ 128 - 2 ^ 103 - 1) = F32.ofInt (2 ^ 128 - 2 ^ 104) ∧
    F32.ofInt (10 ^ 20) * F32.ofInt (-(10 ^ 20)) = F32.inf true ∧
    F32.inf false - F32.inf false = F32.nan ∧
    F32.inf false * 0 = F32.nan ∧
    F32.ofInt 3 * F32.ofInt 5 = F32.ofInt 15 ∧
    F32.fin 1 * F32.fin (2 ^ 148) = 0 ∧
    F32.fin 3 * F32.fin (2 ^ 148) = F32.fin 2 ∧
    F32.fin (2 ^ 148) + F32.fin (2 ^ 147) = F32.fin (3 * 2 ^ 147) ∧
    F32.sqrt (F32.ofInt 4) = F32.ofInt 2 ∧
    F32.sqrt (F32.ofInt 2) = F32.fin (11863283 * 2 ^ 126) ∧
    F32.sqrt (F32.ofInt (-1)) = F32.nan ∧
    F32.le 0 F32.nan = false ∧ F32.le F32.nan F32.nan = false ∧
    F32.le (F32.inf true) 0 = true := by
  refine ⟨?_, ?_, ?_, ?_, ?_, ?_, ?_, ?_, ?_, ?_, ?_, ?_, ?_, ?_, ?_, ?_, ?_, ?_, ?_, ?_, ?_, ?_⟩ <;>
    decide
